import Mathlib

/-!
Shallow embedding of `test_cases_result_data_transformer`:
`src/result_analyzer.py` (ResultAnalyzer) and `src/data_processor.py`
(DataProcessor, JsonFormatProcessor, CSVFormatProcessor).

Python dynamic values are modelled by `JValue`; Python dicts are ordered
association lists (`Dict`) with first-match lookup and overwrite insertion,
matching Python dict semantics for the operations used by the code.
Numbers are modelled by `Rat` (Python's `statistics.mean` computes the exact
mean via `Fraction` before converting, and `min`/`max` return input elements
unchanged, so rational arithmetic is faithful for the properties below).
Exceptions are modelled by `Except` with one error constructor per distinct
raise site / exception kind.
-/

/-- A Python/JSON-style dynamic value. -/
inductive JValue where
  | str (s : String)
  | int (n : Int)
  | num (q : Rat)
  | bool (b : Bool)
  | null
  | arr (elems : List JValue)
  | obj (fields : List (String × JValue))

/-- A Python dict with string keys, as an ordered association list. -/
abbrev Dict := List (String × JValue)

/-- Python `d[k]` / `d.get(k)` lookup: first match (dict keys are unique). -/
def dictLookup : Dict → String → Option JValue
  | [], _ => none
  | (k, v) :: rest, key => if k = key then some v else dictLookup rest key

/-- Python `d[k] = v`: overwrite in place if the key exists, else append. -/
def dictInsert : Dict → String → JValue → Dict
  | [], key, v => [(key, v)]
  | (k, w) :: rest, key, v =>
    if k = key then (key, v) :: rest else (k, w) :: dictInsert rest key v

/-- Python `test.get(key)` on a test record.  The analyzer only ever applies
this to mapping records; a non-mapping record would raise `AttributeError`
in Python, a case outside every hypothesis below. -/
def jget (t : JValue) (key : String) : Option JValue :=
  match t with
  | JValue.obj fields => dictLookup fields key
  | _ => none

/-- Python `test.get("status") == required_status` for a string
`required_status`: only an exactly equal string value compares equal. -/
def statusEquals (t : JValue) (s : String) : Bool :=
  match jget t "status" with
  | some (JValue.str s2) => s2 == s
  | _ => false

/-- Exception kinds raised by `ResultAnalyzer`, one per distinct raise
site (distinct message) in `result_analyzer.py`. -/
inductive AnalyzerError where
  /-- ValueError "Dictionary data cannot be None or empty" -/
  | invalidInput
  /-- ValueError "Dictionary must contain a 'Tests' key" -/
  | missingKey
  /-- TypeError "'Tests' must be a list" -/
  | typeMismatch
  /-- ValueError "No test cases available for duration calculation" -/
  | noData
  /-- KeyError "Test case missing required field" -/
  | missingField
  /-- TypeError from arithmetic on a non-numeric duration value -/
  | nonNumericDuration
  deriving DecidableEq

/-- `ResultAnalyzer.__init__(dictionary_data)`: `none` models Python `None`.
`not dictionary_data` is true exactly for `None` and the empty dict. -/
def resultAnalyzerInit : Option Dict → Except AnalyzerError Dict
  | none => Except.error AnalyzerError.invalidInput
  | some [] => Except.error AnalyzerError.invalidInput
  | some (p :: rest) =>
    match dictLookup (p :: rest) "Tests" with
    | none => Except.error AnalyzerError.missingKey
    | some (JValue.arr _) => Except.ok (p :: rest)
    | some _ => Except.error AnalyzerError.typeMismatch

/-- `self.dictionary_data.get("Tests", [])`.  After construction "Tests" is
always a list, so the non-list fallback is unreachable there. -/
def getTestsList (d : Dict) : List JValue :=
  match dictLookup d "Tests" with
  | some (JValue.arr ts) => ts
  | _ => []

/-- `ResultAnalyzer._get_number_of_test_cases`. -/
def get_number_of_test_cases (d : Dict) : Nat :=
  (getTestsList d).length

/-- `ResultAnalyzer._count_passed_tests(required_status)`. -/
def count_passed_tests (d : Dict) (required_status : String) : Nat :=
  ((getTestsList d).filter (fun t => statusEquals t required_status)).length

/-- `ResultAnalyzer._count_failed_tests`. -/
def count_failed_tests (d : Dict) : Nat :=
  count_passed_tests d "failed"

/-- The list comprehension `[test["durationMs"] for test in tests]`,
raising `KeyError` at the first record missing the key. -/
def extractDurations : List JValue → Except AnalyzerError (List JValue)
  | [] => Except.ok []
  | t :: rest =>
    match jget t "durationMs" with
    | none => Except.error AnalyzerError.missingField
    | some v =>
      match extractDurations rest with
      | Except.ok vs => Except.ok (v :: vs)
      | Except.error e => Except.error e

/-- `ResultAnalyzer._get_test_durations`. -/
def get_test_durations (d : Dict) : Except AnalyzerError (List JValue) :=
  match getTestsList d with
  | [] => Except.error AnalyzerError.noData
  | t :: ts => extractDurations (t :: ts)

/-- A Python number among the duration values (`bool` is an `int` subclass
in Python, hence numeric). Non-numbers make `mean`/`min`/`max` raise. -/
def toNumber : JValue → Option Rat
  | JValue.int n => some (n : Rat)
  | JValue.num q => some q
  | JValue.bool b => some (if b then 1 else 0)
  | _ => none

/-- Convert all durations to numbers; `none` models the `TypeError` that
Python numeric aggregation raises on a non-number. -/
def listToNumbers : List JValue → Option (List Rat)
  | [] => some []
  | v :: vs =>
    match toNumber v with
    | none => none
    | some q =>
      match listToNumbers vs with
      | none => none
      | some qs => some (q :: qs)

/-- `statistics.mean`: the exact arithmetic mean. -/
def pyMean (qs : List Rat) : Rat :=
  qs.sum / (qs.length : Rat)

/-- Python `min(a, x1, ..., xn)` as a left fold from the first element. -/
def pyMinFrom (a : Rat) : List Rat → Rat
  | [] => a
  | x :: xs => pyMinFrom (min a x) xs

/-- Python `max(a, x1, ..., xn)` as a left fold from the first element. -/
def pyMaxFrom (a : Rat) : List Rat → Rat
  | [] => a
  | x :: xs => pyMaxFrom (max a x) xs

/-- `ResultAnalyzer._calculate_average_duration_of_test_execution`. -/
def calculate_average_duration (d : Dict) : Except AnalyzerError Rat :=
  match get_test_durations d with
  | Except.error e => Except.error e
  | Except.ok vs =>
    match listToNumbers vs with
    | none => Except.error AnalyzerError.nonNumericDuration
    | some qs => Except.ok (pyMean qs)

/-- `ResultAnalyzer._get_min_test_cases_execution_time`.  The empty-list
branch mirrors `min([])` raising `ValueError`; it is unreachable because
`_get_test_durations` already rejects the empty case. -/
def get_min_execution_time (d : Dict) : Except AnalyzerError Rat :=
  match get_test_durations d with
  | Except.error e => Except.error e
  | Except.ok vs =>
    match listToNumbers vs with
    | none => Except.error AnalyzerError.nonNumericDuration
    | some [] => Except.error AnalyzerError.noData
    | some (q :: qs) => Except.ok (pyMinFrom q qs)

/-- `ResultAnalyzer._get_max_test_cases_execution_time`. -/
def get_max_execution_time (d : Dict) : Except AnalyzerError Rat :=
  match get_test_durations d with
  | Except.error e => Except.error e
  | Except.ok vs =>
    match listToNumbers vs with
    | none => Except.error AnalyzerError.nonNumericDuration
    | some [] => Except.error AnalyzerError.noData
    | some (q :: qs) => Except.ok (pyMaxFrom q qs)

/-- `ResultAnalyzer.get_test_success_rate`. -/
def get_test_success_rate (d : Dict) : Rat :=
  if get_number_of_test_cases d = 0 then 0
  else ((count_passed_tests d "pass" : Rat) / (get_number_of_test_cases d : Rat)) * 100

/-- The seven-field result dict of `build_dictionary_of_results`. -/
structure StatisticsBundle where
  numberOfTestCases : Nat
  testCasesPassed : Nat
  testCasesFailed : Nat
  averageDuration : Rat
  minimumTestCasesExecutionTime : Rat
  maximumTestCasesExecutionTime : Rat
  successRate : Rat
  deriving DecidableEq

/-- `ResultAnalyzer.build_dictionary_of_results`.  The Python `try` block
re-raises `ValueError`/`KeyError` unchanged, so the first failing field
computation propagates; the count and rate fields never raise. -/
def build_dictionary_of_results (d : Dict) : Except AnalyzerError StatisticsBundle :=
  match calculate_average_duration d with
  | Except.error e => Except.error e
  | Except.ok avg =>
    match get_min_execution_time d with
    | Except.error e => Except.error e
    | Except.ok mn =>
      match get_max_execution_time d with
      | Except.error e => Except.error e
      | Except.ok mx =>
        Except.ok
          { numberOfTestCases := get_number_of_test_cases d
            testCasesPassed := count_passed_tests d "pass"
            testCasesFailed := count_failed_tests d
            averageDuration := avg
            minimumTestCasesExecutionTime := mn
            maximumTestCasesExecutionTime := mx
            successRate := get_test_success_rate d }

/-!
String utilities modelling the Python builtins used by `data_processor.py`
(`str.strip`, `str.lower`, `str.split`, `str.isdigit`, `int(...)`),
implemented by structural recursion over the character list so that all
concrete instances evaluate inside the kernel.  The inputs appearing in the
specification are ASCII; the Unicode refinements of the Python builtins
(further whitespace classes, non-ASCII digits and case mappings) are outside
the behaviour exercised by any claim.
-/

/-- Whitespace characters recognised by Python `str.strip()` (ASCII part). -/
def isSpaceChar (c : Char) : Bool :=
  c = ' ' || c = '\t' || c = '\n' || c = '\r'

/-- Strip leading and trailing whitespace from a character list. -/
def stripChars (cs : List Char) : List Char :=
  ((cs.dropWhile isSpaceChar).reverse.dropWhile isSpaceChar).reverse

/-- Python `s.strip()`. -/
def pyStrip (s : String) : String :=
  String.mk (stripChars s.data)

/-- ASCII lower-casing of one character, as Python `str.lower` does on
ASCII input. -/
def lowerChar (c : Char) : Char :=
  if 'A' ≤ c && c ≤ 'Z' then Char.ofNat (c.toNat + 32) else c

/-- Python `s.lower()`. -/
def pyLower (s : String) : String :=
  String.mk (s.data.map lowerChar)

/-- Python `s.split(sep)` for a one-character separator, on character
lists: always returns at least one (possibly empty) piece. -/
def splitOnChar (sep : Char) : List Char → List (List Char)
  | [] => [[]]
  | c :: cs =>
    let rest := splitOnChar sep cs
    if c = sep then [] :: rest
    else
      match rest with
      | [] => [[c]]
      | piece :: pieces => (c :: piece) :: pieces

/-- Python `s.isdigit()` on ASCII text: non-empty and all decimal digits. -/
def pyIsdigit (cs : List Char) : Bool :=
  !cs.isEmpty && cs.all Char.isDigit

/-- Python `int(s)` on a string of decimal digits. -/
def digitsToNat (cs : List Char) : Nat :=
  cs.foldl (fun a c => a * 10 + (c.toNat - 48)) 0

/-- Exception kinds raised by the data processors: one constructor per
distinct raise site / exception class in `data_processor.py`, carrying the
distinguishing payload of the message where a claim depends on it. -/
inductive ProcError where
  /-- ValueError "File name cannot be empty" -/
  | invalidName
  /-- ValueError for a missing or unsupported extension -/
  | unsupportedFormat (info : String)
  /-- ValueError "JSON content cannot be empty" / "CSV content cannot be empty" -/
  | emptyContent
  /-- ValueError "Invalid JSON format: ..." / "CSV parsing error: ..." -/
  | malformedData (msg : String)
  /-- ValueError "Expected JSON object, got <kind>" -/
  | schemaMismatch (kind : String)
  /-- FileNotFoundError re-raised by process_data -/
  | fileNotFound (msg : String)
  /-- IOError re-raised by process_data -/
  | ioError (msg : String)
  deriving DecidableEq

/-- `DataProcessor._validate_file_extension(file_name)`.  The
`isinstance(file_name, str)` guard is discharged by the `String` type of
the argument.  `supported` is the processor's supported-extension list. -/
def validate_file_extension (supported : List String) (file_name : String) :
    Except ProcError Unit :=
  if pyStrip file_name = "" then Except.error ProcError.invalidName
  else if file_name.data.contains '.' then
    let file_extension := String.mk (((splitOnChar '.' (pyLower file_name).data).getLastD []))
    if file_extension ∈ supported then Except.ok ()
    else Except.error (ProcError.unsupportedFormat file_extension)
  else Except.error (ProcError.unsupportedFormat file_name)

/-- The `type(parsed_data).__name__` used in the "Expected JSON object,
got ..." message. -/
def typeName : JValue → String
  | JValue.str _ => "str"
  | JValue.int _ => "int"
  | JValue.num _ => "float"
  | JValue.bool _ => "bool"
  | JValue.null => "NoneType"
  | JValue.arr _ => "list"
  | JValue.obj _ => "dict"

/-- `JsonFormatProcessor._parse_content(raw_data)`, parameterised by the
external `json.loads` (`loads raw = ok v` means `raw` is well-formed JSON
denoting `v`; `loads raw = error m` models `json.JSONDecodeError`).
The non-dict `ValueError` raised inside the `try` is not a
`JSONDecodeError`, so it escapes the `except` clause unchanged. -/
def json_parse_content (loads : String → Except String JValue) (raw_data : String) :
    Except ProcError JValue :=
  if pyStrip raw_data = "" then Except.error ProcError.emptyContent
  else
    match loads raw_data with
    | Except.error m => Except.error (ProcError.malformedData m)
    | Except.ok parsed_data =>
      match parsed_data with
      | JValue.obj fields => Except.ok (JValue.obj fields)
      | v => Except.error (ProcError.schemaMismatch (typeName v))

/-- The non-blank lines handed to `csv.DictReader` (the csv reader skips
blank rows both for the header and for data). -/
def csvLines (raw_data : String) : List (List Char) :=
  (splitOnChar '\n' raw_data.data).filter (fun cs => !cs.isEmpty)

/-- `csv.DictReader` row construction: zip the field names with the row's
cells; a missing trailing cell gets Python `None` (`restval`), while extra
cells beyond the header go under the `None` key, which the cleaning loop
drops (`if key:`), so they are omitted here. -/
def padCells : List (List Char) → List (List Char) → List (List Char × Option (List Char))
  | [], _ => []
  | h :: hs, [] => (h, none) :: padCells hs []
  | h :: hs, c :: cs => (h, some c) :: padCells hs cs

/-- The value coercion `int(value) if value.isdigit() else value`. -/
def coerceCell (cs : List Char) : JValue :=
  if pyIsdigit cs then JValue.int (digitsToNat cs) else JValue.str (String.mk cs)

/-- The record-cleaning loop body of `CSVFormatProcessor._parse_content`:
skip falsy (empty) keys, strip the key, coerce the value.  A `None` value
(short row) makes `value.isdigit()` raise `AttributeError`, which the
surrounding `except Exception` turns into the CSV parsing error; that is
the `none` result. -/
def cleanRowGo : Dict → List (List Char × Option (List Char)) → Option Dict
  | acc, [] => some acc
  | acc, (key, none) :: rest =>
    if key.isEmpty then cleanRowGo acc rest else none
  | acc, (key, some v) :: rest =>
    if key.isEmpty then cleanRowGo acc rest
    else cleanRowGo (dictInsert acc (String.mk (stripChars key)) (coerceCell v)) rest

/-- Parse every data row against the header, aborting on the first failing
row (no partial import). -/
def parseRows (header : List (List Char)) : List (List Char) → Option (List Dict)
  | [] => some []
  | line :: rest =>
    (cleanRowGo [] (padCells header (splitOnChar ',' line))).bind (fun row =>
      (parseRows header rest).bind (fun rows => some (row :: rows)))

/-- `CSVFormatProcessor._parse_content(raw_data)`.  The csv reader is
modelled for unquoted comma-separated text, which covers every input the
specification speaks about.  The headerless branch is unreachable: a
non-blank input has at least one non-blank line. -/
def csv_parse_content (raw_data : String) : Except ProcError Dict :=
  if pyStrip raw_data = "" then Except.error ProcError.emptyContent
  else
    match csvLines raw_data with
    | [] => Except.ok [("Tests", JValue.arr [])]
    | header :: dataLines =>
      match parseRows (splitOnChar ',' header) dataLines with
      | none => Except.error (ProcError.malformedData "CSV parsing error")
      | some rows => Except.ok [("Tests", JValue.arr (rows.map JValue.obj))]

/-- The outcome of the external `FileManager.file_reader` collaborator. -/
inductive FileReadError where
  | notFound (msg : String)
  | ioFailure (msg : String)
  deriving DecidableEq

/-- The single-quote character, used in the re-raise message. -/
def quoteMark : String :=
  String.mk [Char.ofNat 39]

/-- The context message `f"File error processing \x7bfile_name\x7d: \x7be\x7d"`
built by both `process_data` methods (the file name sits between single
quotes). -/
def fileContextMessage (file_name msg : String) : String :=
  "File error processing " ++ quoteMark ++ file_name ++ quoteMark ++ ": " ++ msg

/-- `raise type(e)(error_msg)`: the original exception class is preserved,
only the message is replaced. -/
def wrapFileError (file_name : String) : FileReadError → ProcError
  | FileReadError.notFound m => ProcError.fileNotFound (fileContextMessage file_name m)
  | FileReadError.ioFailure m => ProcError.ioError (fileContextMessage file_name m)

/-- `JsonFormatProcessor.process_data(file_name)`, parameterised by the
external file reader.  `_parse_content` runs inside the `try`, but its
`ValueError`/`TypeError` exceptions are not caught by the
`except (FileNotFoundError, IOError)` clause, so they propagate unchanged. -/
def json_process_data (loads : String → Except String JValue)
    (reader : String → Except FileReadError String) (file_name : String) :
    Except ProcError JValue :=
  match validate_file_extension ["json"] file_name with
  | Except.error e => Except.error e
  | Except.ok _ =>
    match reader file_name with
    | Except.error e => Except.error (wrapFileError file_name e)
    | Except.ok raw_data => json_parse_content loads raw_data

/-- `CSVFormatProcessor.process_data(file_name)`, parameterised by the
external file reader. -/
def csv_process_data (reader : String → Except FileReadError String)
    (file_name : String) : Except ProcError Dict :=
  match validate_file_extension ["csv"] file_name with
  | Except.error e => Except.error e
  | Except.ok _ =>
    match reader file_name with
    | Except.error e => Except.error (wrapFileError file_name e)
    | Except.ok raw_data => csv_parse_content raw_data

/-- Does `needle` occur at the start of `hay`? -/
def startsWithChars : List Char → List Char → Bool
  | [], _ => true
  | _ :: _, [] => false
  | n :: ns, h :: hs => n = h && startsWithChars ns hs

/-- Does `needle` occur anywhere in `hay`? (Models the membership check
`self.assertIn(needle, message)` used by the repository's tests.) -/
def hasSubChars (needle : List Char) : List Char → Bool
  | [] => needle.isEmpty
  | c :: cs => startsWithChars needle (c :: cs) || hasSubChars needle cs

/-- Substring occurrence on strings. -/
def strHasSub (hay needle : String) : Bool :=
  hasSubChars needle.data hay.data

/-!
Concrete data: the five-record example of the specification (§8) and the
zero-record container, plus the stubbed external collaborators used by the
concrete evaluations.
-/

/-- The five test records of the specification's worked example. -/
def sampleTests : List JValue :=
  [JValue.obj [("status", JValue.str "pass"), ("durationMs", JValue.num (100.5 : Rat))],
   JValue.obj [("status", JValue.str "pass"), ("durationMs", JValue.num (200.0 : Rat))],
   JValue.obj [("status", JValue.str "failed"), ("durationMs", JValue.num (150.3 : Rat))],
   JValue.obj [("status", JValue.str "pass"), ("durationMs", JValue.num (75.8 : Rat))],
   JValue.obj [("status", JValue.str "failed"), ("durationMs", JValue.num (300.2 : Rat))]]

/-- The canonical container holding `sampleTests`. -/
def sampleContainer : Dict := [("Tests", JValue.arr sampleTests)]

/-- The duration values of `sampleTests`, as rationals. -/
def sampleQs : List Rat :=
  [(100.5 : Rat), (200.0 : Rat), (150.3 : Rat), (75.8 : Rat), (300.2 : Rat)]

/-- The `\x7b"Tests": []\x7d` container with zero test records. -/
def emptyTestsDict : Dict := [("Tests", JValue.arr [])]

/-- A file reader that raises `FileNotFoundError("File not found")`, as the
repository's own test mocks do. -/
def readerFileNotFound : String → Except FileReadError String :=
  fun _ => Except.error (FileReadError.notFound "File not found")

/-- A file reader that raises `IOError("Error reading file: disk")`. -/
def readerIOFailure : String → Except FileReadError String :=
  fun _ => Except.error (FileReadError.ioFailure "Error reading file: disk")

/-- A `json.loads` stub; never reached when the file read fails. -/
def loadsUnused : String → Except String JValue :=
  fun _ => Except.error "unused"

/-- A `json.loads` stub returning a fixed top-level JSON object. -/
def loadsObjStub : String → Except String JValue :=
  fun _ => Except.ok (JValue.obj [("Tests", JValue.arr [])])

/-!
Helper lemmas about the analyzer.
-/

lemma getTestsList_eq {d : Dict} {ts : List JValue}
    (h : dictLookup d "Tests" = some (JValue.arr ts)) : getTestsList d = ts := by
  unfold getTestsList
  rw [h]

lemma num_cases_eq {d : Dict} {ts : List JValue}
    (h : dictLookup d "Tests" = some (JValue.arr ts)) :
    get_number_of_test_cases d = ts.length := by
  unfold get_number_of_test_cases
  rw [getTestsList_eq h]

lemma count_passed_eq {d : Dict} {ts : List JValue}
    (h : dictLookup d "Tests" = some (JValue.arr ts)) (s : String) :
    count_passed_tests d s = (ts.filter (fun t => statusEquals t s)).length := by
  unfold count_passed_tests
  rw [getTestsList_eq h]

lemma extract_toNumbers (ts : List JValue) (qs : List Rat)
    (h : ts.map (fun t => (jget t "durationMs").bind toNumber) = qs.map some) :
    ∃ vs, extractDurations ts = Except.ok vs ∧ listToNumbers vs = some qs ∧
      vs.length = ts.length := by
  induction ts generalizing qs with
  | nil =>
    cases qs with
    | nil => exact ⟨[], rfl, rfl, rfl⟩
    | cons q qs => simp at h
  | cons t ts ih =>
    cases qs with
    | nil => simp at h
    | cons q qs =>
      simp only [List.map_cons, List.cons.injEq] at h
      obtain ⟨h1, h2⟩ := h
      obtain ⟨vs, hvs, hnum, hlen⟩ := ih qs h2
      cases hv : jget t "durationMs" with
      | none => rw [hv] at h1; simp at h1
      | some v =>
        rw [hv] at h1
        simp only [Option.some_bind] at h1
        refine ⟨v :: vs, ?_, ?_, ?_⟩
        · unfold extractDurations
          rw [hv, hvs]
        · unfold listToNumbers
          rw [h1, hnum]
        · simp [hlen]

lemma durations_eq {d : Dict} {t : JValue} {ts : List JValue}
    (h : getTestsList d = t :: ts) :
    get_test_durations d = extractDurations (t :: ts) := by
  unfold get_test_durations
  rw [h]

lemma average_eq {d : Dict} {vs : List JValue} {qs : List Rat}
    (h1 : get_test_durations d = Except.ok vs) (h2 : listToNumbers vs = some qs) :
    calculate_average_duration d = Except.ok (pyMean qs) := by
  unfold calculate_average_duration
  rw [h1]
  simp only [h2]

lemma min_time_eq {d : Dict} {vs : List JValue} {q : Rat} {qs : List Rat}
    (h1 : get_test_durations d = Except.ok vs)
    (h2 : listToNumbers vs = some (q :: qs)) :
    get_min_execution_time d = Except.ok (pyMinFrom q qs) := by
  unfold get_min_execution_time
  rw [h1]
  simp only [h2]

lemma max_time_eq {d : Dict} {vs : List JValue} {q : Rat} {qs : List Rat}
    (h1 : get_test_durations d = Except.ok vs)
    (h2 : listToNumbers vs = some (q :: qs)) :
    get_max_execution_time d = Except.ok (pyMaxFrom q qs) := by
  unfold get_max_execution_time
  rw [h1]
  simp only [h2]

lemma success_rate_eq {d : Dict} {ts : List JValue}
    (h : dictLookup d "Tests" = some (JValue.arr ts)) (hne : ts ≠ []) :
    get_test_success_rate d =
      (((ts.filter (fun t => statusEquals t "pass")).length : Rat) / (ts.length : Rat)) * 100 := by
  unfold get_test_success_rate
  rw [num_cases_eq h, count_passed_eq h]
  rw [if_neg (fun hlen => hne (List.length_eq_zero.mp hlen))]

lemma build_eq_of {d : Dict} {avg mn mx : Rat}
    (h1 : calculate_average_duration d = Except.ok avg)
    (h2 : get_min_execution_time d = Except.ok mn)
    (h3 : get_max_execution_time d = Except.ok mx) :
    build_dictionary_of_results d = Except.ok
      { numberOfTestCases := get_number_of_test_cases d
        testCasesPassed := count_passed_tests d "pass"
        testCasesFailed := count_failed_tests d
        averageDuration := avg
        minimumTestCasesExecutionTime := mn
        maximumTestCasesExecutionTime := mx
        successRate := get_test_success_rate d } := by
  unfold build_dictionary_of_results
  rw [h1, h2, h3]

lemma pyMinFrom_mem (a : Rat) (xs : List Rat) : pyMinFrom a xs ∈ a :: xs := by
  induction xs generalizing a with
  | nil => simp [pyMinFrom]
  | cons x xs ih =>
    simp only [pyMinFrom]
    rcases List.mem_cons.mp (ih (min a x)) with h1 | h1
    · rcases min_choice a x with hm | hm
      · rw [h1, hm]
        exact List.mem_cons_self _ _
      · rw [h1, hm]
        exact List.mem_cons_of_mem _ (List.mem_cons_self _ _)
    · exact List.mem_cons_of_mem _ (List.mem_cons_of_mem _ h1)

lemma pyMinFrom_le (a : Rat) (xs : List Rat) : ∀ y ∈ a :: xs, pyMinFrom a xs ≤ y := by
  induction xs generalizing a with
  | nil =>
    intro y hy
    simp only [List.mem_singleton] at hy
    subst hy
    simp [pyMinFrom]
  | cons x xs ih =>
    intro y hy
    simp only [pyMinFrom]
    have hhead : pyMinFrom (min a x) xs ≤ min a x :=
      ih (min a x) _ (List.mem_cons_self _ _)
    rcases List.mem_cons.mp hy with h1 | h1
    · rw [h1] at *
      exact le_trans hhead (min_le_left _ _)
    · rcases List.mem_cons.mp h1 with h2 | h2
      · rw [h2] at *
        exact le_trans hhead (min_le_right _ _)
      · exact ih (min a x) _ (List.mem_cons_of_mem _ h2)

lemma pyMaxFrom_mem (a : Rat) (xs : List Rat) : pyMaxFrom a xs ∈ a :: xs := by
  induction xs generalizing a with
  | nil => simp [pyMaxFrom]
  | cons x xs ih =>
    simp only [pyMaxFrom]
    rcases List.mem_cons.mp (ih (max a x)) with h1 | h1
    · rcases max_choice a x with hm | hm
      · rw [h1, hm]
        exact List.mem_cons_self _ _
      · rw [h1, hm]
        exact List.mem_cons_of_mem _ (List.mem_cons_self _ _)
    · exact List.mem_cons_of_mem _ (List.mem_cons_of_mem _ h1)

lemma pyMaxFrom_ge (a : Rat) (xs : List Rat) : ∀ y ∈ a :: xs, y ≤ pyMaxFrom a xs := by
  induction xs generalizing a with
  | nil =>
    intro y hy
    simp only [List.mem_singleton] at hy
    subst hy
    simp [pyMaxFrom]
  | cons x xs ih =>
    intro y hy
    simp only [pyMaxFrom]
    have hhead : max a x ≤ pyMaxFrom (max a x) xs :=
      ih (max a x) _ (List.mem_cons_self _ _)
    rcases List.mem_cons.mp hy with h1 | h1
    · rw [h1] at *
      exact le_trans (le_max_left _ _) hhead
    · rcases List.mem_cons.mp h1 with h2 | h2
      · rw [h2] at *
        exact le_trans (le_max_right _ _) hhead
      · exact ih (max a x) _ (List.mem_cons_of_mem _ h2)

lemma mul_length_le_sum {b : Rat} {xs : List Rat} (h : ∀ x ∈ xs, b ≤ x) :
    b * (xs.length : Rat) ≤ xs.sum := by
  induction xs with
  | nil => simp
  | cons x xs ih =>
    have hb : b ≤ x := h x (List.mem_cons_self _ _)
    have ih2 := ih (fun y hy => h y (List.mem_cons_of_mem _ hy))
    simp only [List.sum_cons, List.length_cons]
    push_cast
    nlinarith [ih2, hb]

lemma sum_le_mul_length {b : Rat} {xs : List Rat} (h : ∀ x ∈ xs, x ≤ b) :
    xs.sum ≤ b * (xs.length : Rat) := by
  induction xs with
  | nil => simp
  | cons x xs ih =>
    have hb : x ≤ b := h x (List.mem_cons_self _ _)
    have ih2 := ih (fun y hy => h y (List.mem_cons_of_mem _ hy))
    simp only [List.sum_cons, List.length_cons]
    push_cast
    nlinarith [ih2, hb]

/-!
Claim theorems: Result Analyzer.
-/

/-- Claim C1: on every container whose "Tests" sequence is non-empty and all
of whose records carry a numeric "durationMs", `build_dictionary_of_results`
succeeds and returns exactly the seven fields: the length of the sequence,
the number of records with status exactly "pass", the number with status
exactly "failed", the arithmetic mean of the durations, their minimum and
maximum, and `100 * passed / total`; in particular the specification's
five-record example yields 5, 3, 2, average 165.36, minimum 75.8, maximum
300.2 and success rate 60. -/
theorem buildSummary_correct :
    (∀ (d : Dict) (ts : List JValue) (qs : List Rat),
      dictLookup d "Tests" = some (JValue.arr ts) →
      ts ≠ [] →
      ts.map (fun t => (jget t "durationMs").bind toNumber) = qs.map some →
      ∃ mn mx,
        build_dictionary_of_results d = Except.ok
          { numberOfTestCases := ts.length
            testCasesPassed := (ts.filter (fun t => statusEquals t "pass")).length
            testCasesFailed := (ts.filter (fun t => statusEquals t "failed")).length
            averageDuration := qs.sum / (qs.length : Rat)
            minimumTestCasesExecutionTime := mn
            maximumTestCasesExecutionTime := mx
            successRate := 100 * ((ts.filter (fun t => statusEquals t "pass")).length : Rat) /
              (ts.length : Rat) } ∧
        mn ∈ qs ∧ (∀ x ∈ qs, mn ≤ x) ∧ mx ∈ qs ∧ (∀ x ∈ qs, x ≤ mx)) ∧
    build_dictionary_of_results sampleContainer = Except.ok
      { numberOfTestCases := 5
        testCasesPassed := 3
        testCasesFailed := 2
        averageDuration := (165.36 : Rat)
        minimumTestCasesExecutionTime := (75.8 : Rat)
        maximumTestCasesExecutionTime := (300.2 : Rat)
        successRate := 60 } := by
  constructor
  · intro d ts qs hT hne hqs
    obtain ⟨vs, hvs, hnum, hlen⟩ := extract_toNumbers ts qs hqs
    have hts : getTestsList d = ts := getTestsList_eq hT
    obtain ⟨t, ts2, rfl⟩ : ∃ t ts2, ts = t :: ts2 := by
      cases ts with
      | nil => exact absurd rfl hne
      | cons a b => exact ⟨a, b, rfl⟩
    obtain ⟨q, qs2, rfl⟩ : ∃ q qs2, qs = q :: qs2 := by
      cases qs with
      | nil => simp at hqs
      | cons a b => exact ⟨a, b, rfl⟩
    have hdur : get_test_durations d = Except.ok vs := by
      rw [durations_eq hts]
      exact hvs
    have havg : calculate_average_duration d = Except.ok (pyMean (q :: qs2)) :=
      average_eq hdur hnum
    have hmn : get_min_execution_time d = Except.ok (pyMinFrom q qs2) :=
      min_time_eq hdur hnum
    have hmx : get_max_execution_time d = Except.ok (pyMaxFrom q qs2) :=
      max_time_eq hdur hnum
    refine ⟨pyMinFrom q qs2, pyMaxFrom q qs2, ?_, pyMinFrom_mem q qs2,
      pyMinFrom_le q qs2, pyMaxFrom_mem q qs2, pyMaxFrom_ge q qs2⟩
    rw [build_eq_of havg hmn hmx]
    refine congrArg Except.ok ?_
    refine (StatisticsBundle.mk.injEq _ _ _ _ _ _ _ _ _ _ _ _ _ _).mpr ?_
    refine ⟨num_cases_eq hT, count_passed_eq hT "pass", ?_, rfl, rfl, rfl, ?_⟩
    · unfold count_failed_tests
      exact count_passed_eq hT "failed"
    · rw [success_rate_eq hT hne]
      ring
  · have h1 : calculate_average_duration sampleContainer = Except.ok (pyMean sampleQs) := rfl
    have h2 : get_min_execution_time sampleContainer = Except.ok
        (pyMinFrom (100.5 : Rat) [(200.0 : Rat), (150.3 : Rat), (75.8 : Rat), (300.2 : Rat)]) := rfl
    have h3 : get_max_execution_time sampleContainer = Except.ok
        (pyMaxFrom (100.5 : Rat) [(200.0 : Rat), (150.3 : Rat), (75.8 : Rat), (300.2 : Rat)]) := rfl
    rw [build_eq_of h1 h2 h3]
    refine congrArg Except.ok ?_
    refine (StatisticsBundle.mk.injEq _ _ _ _ _ _ _ _ _ _ _ _ _ _).mpr ?_
    refine ⟨rfl, rfl, rfl, ?_, ?_, ?_, ?_⟩
    · norm_num [pyMean, sampleQs, List.sum_cons, List.sum_nil]
    · norm_num [pyMinFrom, min_def]
    · norm_num [pyMaxFrom, max_def]
    · have hc : count_passed_tests sampleContainer "pass" = 3 := rfl
      have hn : get_number_of_test_cases sampleContainer = 5 := rfl
      unfold get_test_success_rate
      rw [hc, hn]
      norm_num

/-- Witness for C1: the general statement applied to the concrete
five-record example, whose hypotheses all hold by computation. -/
theorem buildSummary_correct_witness :
    (dictLookup sampleContainer "Tests" = some (JValue.arr sampleTests) ∧
     sampleTests ≠ [] ∧
     sampleTests.map (fun t => (jget t "durationMs").bind toNumber) = sampleQs.map some) ∧
    (∃ mn mx,
      build_dictionary_of_results sampleContainer = Except.ok
        { numberOfTestCases := sampleTests.length
          testCasesPassed := (sampleTests.filter (fun t => statusEquals t "pass")).length
          testCasesFailed := (sampleTests.filter (fun t => statusEquals t "failed")).length
          averageDuration := sampleQs.sum / (sampleQs.length : Rat)
          minimumTestCasesExecutionTime := mn
          maximumTestCasesExecutionTime := mx
          successRate := 100 * ((sampleTests.filter (fun t => statusEquals t "pass")).length : Rat) /
            (sampleTests.length : Rat) } ∧
      mn ∈ sampleQs ∧ (∀ x ∈ sampleQs, mn ≤ x) ∧
      mx ∈ sampleQs ∧ (∀ x ∈ sampleQs, x ≤ mx)) :=
  ⟨⟨rfl, List.cons_ne_nil _ _, rfl⟩,
   buildSummary_correct.1 sampleContainer sampleTests sampleQs rfl (List.cons_ne_nil _ _) rfl⟩

/-- Claim C2: over the zero-record container, construction succeeds,
countTotal returns 0 and successRate returns 0 without failing, while
durations fails with NoData and buildSummary propagates exactly that NoData
failure instead of substituting defaults. -/
theorem empty_tests_behaviour :
    resultAnalyzerInit (some emptyTestsDict) = Except.ok emptyTestsDict ∧
    get_number_of_test_cases emptyTestsDict = 0 ∧
    get_test_success_rate emptyTestsDict = 0 ∧
    get_test_durations emptyTestsDict = Except.error AnalyzerError.noData ∧
    build_dictionary_of_results emptyTestsDict = Except.error AnalyzerError.noData :=
  ⟨rfl, rfl, rfl, rfl, rfl⟩

/-- Claim C5: analyzer construction fails with InvalidInput for an absent
(None) or empty container, with MissingKey for a non-empty container
without "Tests", with TypeMismatch when "Tests" is present but not a
sequence, succeeds otherwise, and the three failure kinds are pairwise
distinguishable. -/
theorem init_error_classification :
    resultAnalyzerInit none = Except.error AnalyzerError.invalidInput ∧
    resultAnalyzerInit (some []) = Except.error AnalyzerError.invalidInput ∧
    (∀ d : Dict, d ≠ [] → dictLookup d "Tests" = none →
      resultAnalyzerInit (some d) = Except.error AnalyzerError.missingKey) ∧
    (∀ (d : Dict) (v : JValue), d ≠ [] → dictLookup d "Tests" = some v →
      (∀ xs, v ≠ JValue.arr xs) →
      resultAnalyzerInit (some d) = Except.error AnalyzerError.typeMismatch) ∧
    (∀ (d : Dict) (xs : List JValue), d ≠ [] →
      dictLookup d "Tests" = some (JValue.arr xs) →
      resultAnalyzerInit (some d) = Except.ok d) ∧
    AnalyzerError.invalidInput ≠ AnalyzerError.missingKey ∧
    AnalyzerError.invalidInput ≠ AnalyzerError.typeMismatch ∧
    AnalyzerError.missingKey ≠ AnalyzerError.typeMismatch := by
  refine ⟨rfl, rfl, ?_, ?_, ?_, by decide, by decide, by decide⟩
  · intro d hne hlook
    cases d with
    | nil => exact absurd rfl hne
    | cons p rest =>
      simp only [resultAnalyzerInit]
      rw [hlook]
  · intro d v hne hlook hnotarr
    cases d with
    | nil => exact absurd rfl hne
    | cons p rest =>
      simp only [resultAnalyzerInit]
      rw [hlook]
      cases v with
      | arr xs => exact absurd rfl (hnotarr xs)
      | str s => rfl
      | int n => rfl
      | num q => rfl
      | bool b => rfl
      | null => rfl
      | obj fields => rfl
  · intro d xs hne hlook
    cases d with
    | nil => exact absurd rfl hne
    | cons p rest =>
      simp only [resultAnalyzerInit]
      rw [hlook]

/-- Witness for C5: the MissingKey case at a concrete one-key container. -/
theorem init_error_classification_witness :
    ([(("Other" : String), JValue.null)] ≠ ([] : Dict)) ∧
    dictLookup [("Other", JValue.null)] "Tests" = none ∧
    resultAnalyzerInit (some [("Other", JValue.null)]) =
      Except.error AnalyzerError.missingKey :=
  ⟨List.cons_ne_nil _ _, rfl,
   init_error_classification.2.2.1 _ (List.cons_ne_nil _ _) rfl⟩

/-- Claim C6: on a non-empty record set in which every record has a numeric
"durationMs", durations succeeds with length equal to countTotal, and
minDuration ≤ averageDuration ≤ maxDuration. -/
theorem durations_mean_bounds (d : Dict) (ts : List JValue) (qs : List Rat)
    (hT : dictLookup d "Tests" = some (JValue.arr ts))
    (hne : ts ≠ [])
    (hqs : ts.map (fun t => (jget t "durationMs").bind toNumber) = qs.map some) :
    (∃ vs, get_test_durations d = Except.ok vs ∧
      vs.length = get_number_of_test_cases d) ∧
    (∃ mn avg mx,
      get_min_execution_time d = Except.ok mn ∧
      calculate_average_duration d = Except.ok avg ∧
      get_max_execution_time d = Except.ok mx ∧
      mn ≤ avg ∧ avg ≤ mx) := by
  obtain ⟨vs, hvs, hnum, hlen⟩ := extract_toNumbers ts qs hqs
  have hts : getTestsList d = ts := getTestsList_eq hT
  obtain ⟨t, ts2, rfl⟩ : ∃ t ts2, ts = t :: ts2 := by
    cases ts with
    | nil => exact absurd rfl hne
    | cons a b => exact ⟨a, b, rfl⟩
  obtain ⟨q, qs2, rfl⟩ : ∃ q qs2, qs = q :: qs2 := by
    cases qs with
    | nil => simp at hqs
    | cons a b => exact ⟨a, b, rfl⟩
  have hdur : get_test_durations d = Except.ok vs := by
    rw [durations_eq hts]
    exact hvs
  have hpos : (0 : Rat) < ((q :: qs2).length : Rat) :=
    Nat.cast_pos.mpr (Nat.succ_pos _)
  constructor
  · refine ⟨vs, hdur, ?_⟩
    rw [num_cases_eq hT]
    exact hlen
  · refine ⟨pyMinFrom q qs2, pyMean (q :: qs2), pyMaxFrom q qs2,
      min_time_eq hdur hnum, average_eq hdur hnum, max_time_eq hdur hnum, ?_, ?_⟩
    · unfold pyMean
      rw [le_div_iff₀ hpos]
      exact mul_length_le_sum (pyMinFrom_le q qs2)
    · unfold pyMean
      rw [div_le_iff₀ hpos]
      exact sum_le_mul_length (pyMaxFrom_ge q qs2)

/-- Witness for C6: the statement applied to the concrete five-record
example. -/
theorem durations_mean_bounds_witness :
    (dictLookup sampleContainer "Tests" = some (JValue.arr sampleTests) ∧
     sampleTests ≠ [] ∧
     sampleTests.map (fun t => (jget t "durationMs").bind toNumber) = sampleQs.map some) ∧
    ((∃ vs, get_test_durations sampleContainer = Except.ok vs ∧
       vs.length = get_number_of_test_cases sampleContainer) ∧
     (∃ mn avg mx,
       get_min_execution_time sampleContainer = Except.ok mn ∧
       calculate_average_duration sampleContainer = Except.ok avg ∧
       get_max_execution_time sampleContainer = Except.ok mx ∧
       mn ≤ avg ∧ avg ≤ mx)) :=
  ⟨⟨rfl, List.cons_ne_nil _ _, rfl⟩,
   durations_mean_bounds sampleContainer sampleTests sampleQs rfl
     (List.cons_ne_nil _ _) rfl⟩

/-!
Helper lemmas about the CSV parser.
-/

/-- Every field of a cleaned CSV record: the key is some header name with
surrounding whitespace stripped, and the value is the digit-coercion of
some cell (an integer or a kept text, never a float or a boolean). -/
def CleanKV (kv : String × JValue) : Prop :=
  (∃ cs : List Char, kv.1 = String.mk (stripChars cs)) ∧
  ((∃ n, kv.2 = JValue.int n) ∨ (∃ s, kv.2 = JValue.str s))

lemma coerceCell_int_or_str (v : List Char) :
    (∃ n, coerceCell v = JValue.int n) ∨ (∃ s, coerceCell v = JValue.str s) := by
  unfold coerceCell
  by_cases h : pyIsdigit v
  · rw [if_pos h]
    exact Or.inl ⟨_, rfl⟩
  · rw [if_neg h]
    exact Or.inr ⟨_, rfl⟩

lemma dictInsert_forall {P : String × JValue → Prop} {key : String} {v : JValue}
    (hkv : P (key, v)) :
    ∀ acc : Dict, (∀ kv ∈ acc, P kv) → ∀ kv ∈ dictInsert acc key v, P kv := by
  intro acc
  induction acc with
  | nil =>
    intro _ kv hm
    simp only [dictInsert, List.mem_singleton] at hm
    rw [hm]
    exact hkv
  | cons p rest ih =>
    obtain ⟨k, w⟩ := p
    intro hacc kv hm
    simp only [dictInsert] at hm
    by_cases hk : k = key
    · rw [if_pos hk] at hm
      rcases List.mem_cons.mp hm with h1 | h1
      · rw [h1]
        exact hkv
      · exact hacc _ (List.mem_cons_of_mem _ h1)
    · rw [if_neg hk] at hm
      rcases List.mem_cons.mp hm with h1 | h1
      · rw [h1]
        exact hacc _ (List.mem_cons_self _ _)
      · exact ih (fun kv2 hkv2 => hacc _ (List.mem_cons_of_mem _ hkv2)) _ h1

lemma cleanRowGo_clean :
    ∀ (pairs : List (List Char × Option (List Char))) (acc d : Dict),
      (∀ kv ∈ acc, CleanKV kv) → cleanRowGo acc pairs = some d →
      ∀ kv ∈ d, CleanKV kv := by
  intro pairs
  induction pairs with
  | nil =>
    intro acc d hacc h
    simp only [cleanRowGo, Option.some.injEq] at h
    subst h
    exact hacc
  | cons pr rest ih =>
    obtain ⟨key, val⟩ := pr
    intro acc d hacc h
    cases val with
    | none =>
      simp only [cleanRowGo] at h
      by_cases hk : key.isEmpty
      · rw [if_pos hk] at h
        exact ih acc d hacc h
      · rw [if_neg hk] at h
        exact absurd h (by simp)
    | some v =>
      simp only [cleanRowGo] at h
      by_cases hk : key.isEmpty
      · rw [if_pos hk] at h
        exact ih acc d hacc h
      · rw [if_neg hk] at h
        refine ih _ d ?_ h
        exact dictInsert_forall ⟨⟨key, rfl⟩, coerceCell_int_or_str v⟩ acc hacc

lemma parseRows_clean :
    ∀ (lines header : List (List Char)) (rows : List Dict),
      parseRows header lines = some rows →
      ∀ r ∈ rows, ∀ kv ∈ r, CleanKV kv := by
  intro lines
  induction lines with
  | nil =>
    intro header rows h
    simp only [parseRows, Option.some.injEq] at h
    subst h
    intro r hr
    simp at hr
  | cons line rest ih =>
    intro header rows h
    simp only [parseRows] at h
    cases hrow : cleanRowGo [] (padCells header (splitOnChar ',' line)) with
    | none =>
      rw [hrow] at h
      simp at h
    | some row =>
      rw [hrow] at h
      cases hrest : parseRows header rest with
      | none =>
        rw [hrest] at h
        simp at h
      | some rows2 =>
        rw [hrest] at h
        simp only [Option.some_bind, Option.some.injEq] at h
        subst h
        intro r hr
        rcases List.mem_cons.mp hr with h1 | h1
        · subst h1
          exact cleanRowGo_clean _ [] r (by simp) hrow
        · exact ih header rows2 hrest r h1

lemma csv_ok_cases {raw : String} {d : Dict} (h : csv_parse_content raw = Except.ok d) :
    ∃ rows : List Dict, d = [("Tests", JValue.arr (rows.map JValue.obj))] ∧
      ∀ r ∈ rows, ∀ kv ∈ r, CleanKV kv := by
  unfold csv_parse_content at h
  by_cases hs : pyStrip raw = ""
  · rw [if_pos hs] at h
    exact absurd h (by simp)
  · rw [if_neg hs] at h
    cases hl : csvLines raw with
    | nil =>
      rw [hl] at h
      simp only [Except.ok.injEq] at h
      refine ⟨[], ?_, by simp⟩
      rw [← h]
      rfl
    | cons header dataLines =>
      rw [hl] at h
      simp only [] at h
      cases hp : parseRows (splitOnChar ',' header) dataLines with
      | none =>
        rw [hp] at h
        simp at h
      | some rows =>
        rw [hp] at h
        simp only [Except.ok.injEq] at h
        exact ⟨rows, h.symm, parseRows_clean dataLines _ rows hp⟩

/-!
Helper lemmas about whitespace stripping.
-/

lemma head?_dropWhile_not {α : Type} {p : α → Bool} (l : List α) (c : α)
    (h : (l.dropWhile p).head? = some c) : p c = false := by
  induction l with
  | nil => simp at h
  | cons x xs ih =>
    rw [List.dropWhile_cons] at h
    by_cases hx : p x
    · rw [if_pos hx] at h
      exact ih h
    · rw [if_neg hx] at h
      simp only [List.head?_cons, Option.some.injEq] at h
      subst h
      exact Bool.eq_false_iff.mpr hx

lemma getLast?_dropWhile_some {α : Type} {p : α → Bool} (l : List α) (c : α)
    (h : (l.dropWhile p).getLast? = some c) : l.getLast? = some c := by
  induction l with
  | nil => simp at h
  | cons x xs ih =>
    rw [List.dropWhile_cons] at h
    by_cases hx : p x
    · rw [if_pos hx] at h
      have h2 := ih h
      cases xs with
      | nil => simp at h2
      | cons y ys =>
        rw [List.getLast?_cons_cons]
        exact h2
    · rw [if_neg hx] at h
      exact h

lemma stripChars_head_not_space (cs : List Char) (c : Char)
    (h : (stripChars cs).head? = some c) : isSpaceChar c = false := by
  unfold stripChars at h
  rw [List.head?_reverse] at h
  have h2 := getLast?_dropWhile_some _ c h
  rw [List.getLast?_reverse] at h2
  exact head?_dropWhile_not _ c h2

lemma stripChars_getLast_not_space (cs : List Char) (c : Char)
    (h : (stripChars cs).getLast? = some c) : isSpaceChar c = false := by
  unfold stripChars at h
  rw [List.getLast?_reverse] at h
  exact head?_dropWhile_not _ c h

/-!
Claim theorems: data processors.
-/

/-- Claim C3: in CSV parsing every data cell consisting only of decimal
digits is coerced to an integer and every other cell is kept as text
("007" becomes 7, "3.14" and "pass" stay textual); the values of every
successfully parsed record are integers or text only (never floats or
booleans); and the two-row example parses to exactly the expected record
set in file row order. -/
theorem csv_coercion_policy :
    (∀ cs : List Char, pyIsdigit cs = true → coerceCell cs = JValue.int (digitsToNat cs)) ∧
    (∀ cs : List Char, pyIsdigit cs = false → coerceCell cs = JValue.str (String.mk cs)) ∧
    coerceCell "007".data = JValue.int 7 ∧
    coerceCell "3.14".data = JValue.str "3.14" ∧
    coerceCell "pass".data = JValue.str "pass" ∧
    (∀ (raw : String) (d : Dict), csv_parse_content raw = Except.ok d →
      ∃ rows : List Dict, d = [("Tests", JValue.arr (rows.map JValue.obj))] ∧
        ∀ r ∈ rows, ∀ kv ∈ r,
          (∃ n, kv.2 = JValue.int n) ∨ (∃ s, kv.2 = JValue.str s)) ∧
    csv_parse_content "name,status,durationMs\ntest1,pass,100\ntest2,failed,200" =
      Except.ok [("Tests", JValue.arr
        [JValue.obj [("name", JValue.str "test1"), ("status", JValue.str "pass"),
          ("durationMs", JValue.int 100)],
         JValue.obj [("name", JValue.str "test2"), ("status", JValue.str "failed"),
          ("durationMs", JValue.int 200)]])] := by
  refine ⟨?_, ?_, rfl, rfl, rfl, ?_, rfl⟩
  · intro cs h
    unfold coerceCell
    rw [if_pos h]
  · intro cs h
    unfold coerceCell
    rw [if_neg (by simp [h])]
  · intro raw d h
    obtain ⟨rows, hd, hclean⟩ := csv_ok_cases h
    exact ⟨rows, hd, fun r hr kv hkv => (hclean r hr kv hkv).2⟩

/-- Witness for C3: the digit-coercion branch applied at "007". -/
theorem csv_coercion_policy_witness :
    pyIsdigit "007".data = true ∧
    coerceCell "007".data = JValue.int (digitsToNat "007".data) :=
  ⟨by decide, csv_coercion_policy.1 _ (by decide)⟩

/-- Claim C7 counterexample: parsing succeeds on a CSV whose second header
name is a single space, and the resulting record carries the empty string
as a key — so a record of a successful parse CAN have an empty key. -/
theorem csv_empty_key_counterexample :
    csv_parse_content "name, \ntest1,5" =
      Except.ok [("Tests", JValue.arr
        [JValue.obj [("name", JValue.str "test1"), ("", JValue.int 5)]])] ∧
    ("" : String) ∈
      [(("name" : String), JValue.str "test1"), (("" : String), JValue.int 5)].map Prod.fst :=
  ⟨rfl, by decide⟩

/-- Claim C7 (amended): every key of every record of a successful CSV parse
is some header name with its surrounding whitespace stripped, hence no key
retains leading or trailing whitespace; however only columns whose raw
(untrimmed) name is empty are dropped, so a whitespace-only header name
yields an empty-string key. -/
theorem csv_keys_trimmed (raw : String) (d : Dict)
    (h : csv_parse_content raw = Except.ok d) :
    ∃ rows : List Dict, d = [("Tests", JValue.arr (rows.map JValue.obj))] ∧
      ∀ r ∈ rows, ∀ kv ∈ r,
        (∃ cs : List Char, kv.1 = String.mk (stripChars cs)) ∧
        (∀ c, kv.1.data.head? = some c → isSpaceChar c = false) ∧
        (∀ c, kv.1.data.getLast? = some c → isSpaceChar c = false) := by
  obtain ⟨rows, hd, hclean⟩ := csv_ok_cases h
  refine ⟨rows, hd, fun r hr kv hkv => ?_⟩
  obtain ⟨⟨cs, hk⟩, _⟩ := hclean r hr kv hkv
  refine ⟨⟨cs, hk⟩, ?_, ?_⟩
  · intro c hc
    rw [hk] at hc
    exact stripChars_head_not_space cs c hc
  · intro c hc
    rw [hk] at hc
    exact stripChars_getLast_not_space cs c hc

/-- Witness for C7 (amended): a header name padded with spaces comes out
trimmed. -/
theorem csv_keys_trimmed_witness :
    csv_parse_content " name \ntest1" =
      Except.ok [("Tests", JValue.arr [JValue.obj [("name", JValue.str "test1")]])] ∧
    (∃ rows : List Dict,
      ([("Tests", JValue.arr [JValue.obj [("name", JValue.str "test1")]])] : Dict) =
        [("Tests", JValue.arr (rows.map JValue.obj))] ∧
      ∀ r ∈ rows, ∀ kv ∈ r,
        (∃ cs : List Char, kv.1 = String.mk (stripChars cs)) ∧
        (∀ c, kv.1.data.head? = some c → isSpaceChar c = false) ∧
        (∀ c, kv.1.data.getLast? = some c → isSpaceChar c = false)) :=
  ⟨rfl, csv_keys_trimmed " name \ntest1"
    [("Tests", JValue.arr [JValue.obj [("name", JValue.str "test1")]])] rfl⟩

/-- Claim C10: every successful CSV parse yields a non-empty mapping whose
"Tests" value is a sequence, so feeding it to the Result Analyzer
constructor always succeeds — also for a header row with no data rows. -/
theorem csv_feeds_analyzer (raw : String) (d : Dict)
    (h : csv_parse_content raw = Except.ok d) :
    d ≠ [] ∧
    (∃ rows : List JValue, dictLookup d "Tests" = some (JValue.arr rows)) ∧
    resultAnalyzerInit (some d) = Except.ok d := by
  obtain ⟨rows, hd, _⟩ := csv_ok_cases h
  subst hd
  exact ⟨List.cons_ne_nil _ _, ⟨rows.map JValue.obj, rfl⟩, rfl⟩

/-- Witness for C10: a header-only CSV still constructs a valid analyzer
input. -/
theorem csv_feeds_analyzer_witness :
    csv_parse_content "name,status" = Except.ok [("Tests", JValue.arr [])] ∧
    (([("Tests", JValue.arr ([] : List JValue))] : Dict) ≠ [] ∧
     (∃ rows : List JValue,
       dictLookup [("Tests", JValue.arr ([] : List JValue))] "Tests" =
         some (JValue.arr rows)) ∧
     resultAnalyzerInit (some [("Tests", JValue.arr ([] : List JValue))]) =
       Except.ok [("Tests", JValue.arr ([] : List JValue))]) :=
  ⟨rfl, csv_feeds_analyzer "name,status" [("Tests", JValue.arr [])] rfl⟩

/-- Claim C8: extension validation succeeds exactly when the (string) file
name is not whitespace-only, contains a dot, and the lower-cased suffix
after the last dot is a member of the accepted extension list (exact,
case-insensitive membership); "data.JSON" against ["json"] succeeds and
"no_extension" fails with UnsupportedFormat. -/
theorem validate_extension_iff :
    (∀ (file_name : String) (supported : List String),
      validate_file_extension supported file_name = Except.ok () ↔
        (pyStrip file_name ≠ "" ∧ file_name.data.contains '.' = true ∧
          String.mk ((splitOnChar '.' (pyLower file_name).data).getLastD []) ∈ supported)) ∧
    validate_file_extension ["json"] "data.JSON" = Except.ok () ∧
    validate_file_extension ["json"] "no_extension" =
      Except.error (ProcError.unsupportedFormat "no_extension") := by
  refine ⟨?_, rfl, rfl⟩
  intro file_name supported
  unfold validate_file_extension
  by_cases h1 : pyStrip file_name = ""
  · rw [if_pos h1]
    exact iff_of_false (by simp) (fun hc => hc.1 h1)
  · rw [if_neg h1]
    by_cases h2 : file_name.data.contains '.'
    · rw [if_pos h2]
      by_cases h3 : String.mk ((splitOnChar '.' (pyLower file_name).data).getLastD []) ∈ supported
      · rw [if_pos h3]
        exact iff_of_true rfl ⟨h1, h2, h3⟩
      · rw [if_neg h3]
        exact iff_of_false (by simp) (fun hc => h3 hc.2.2)
    · rw [if_neg h2]
      exact iff_of_false (by simp) (fun hc => h2 hc.2.1)

/-- Witness for C8: the success direction at "data.JSON" / ["json"]. -/
theorem validate_extension_iff_witness :
    validate_file_extension ["json"] "data.JSON" = Except.ok () :=
  (validate_extension_iff.1 "data.JSON" ["json"]).mpr
    ⟨by decide, by decide, by decide⟩

/-- Claim C9: for every non-blank raw text that parses as JSON, the JSON
parser returns a top-level mapping unchanged — it does not require a
"Tests" key — and fails with SchemaMismatch naming the actual top-level
kind when the parsed value is not a mapping. -/
theorem json_parse_top_level (loads : String → Except String JValue) (raw : String)
    (v : JValue) (hne : pyStrip raw ≠ "") (hp : loads raw = Except.ok v) :
    (∀ fields, v = JValue.obj fields → json_parse_content loads raw = Except.ok v) ∧
    ((∀ fields, v ≠ JValue.obj fields) →
      json_parse_content loads raw = Except.error (ProcError.schemaMismatch (typeName v))) := by
  constructor
  · intro fields hf
    subst hf
    unfold json_parse_content
    rw [if_neg hne, hp]
  · intro hnot
    unfold json_parse_content
    rw [if_neg hne, hp]
    cases v with
    | obj fields => exact absurd rfl (hnot fields)
    | str s => rfl
    | int n => rfl
    | num q => rfl
    | bool b => rfl
    | null => rfl
    | arr elems => rfl

/-- Witness for C9: a loads stub returning an object, on a non-blank raw
text. -/
theorem json_parse_top_level_witness :
    pyStrip "x" ≠ "" ∧
    json_parse_content loadsObjStub "x" =
      Except.ok (JValue.obj [("Tests", JValue.arr [])]) :=
  ⟨by decide,
   (json_parse_top_level loadsObjStub "x" (JValue.obj [("Tests", JValue.arr [])])
     (by decide) rfl).1 [("Tests", JValue.arr [])] rfl⟩

/-- Claim C4 (divergence evidence): when the file read fails, both
process_data variants re-raise preserving the error kind (not-found vs
I/O), but the context message reads "File error processing <name>: <cause>"
and is identical for the two formats — it does not contain the
format-specific "Error processing JSON file" / "Error processing CSV file"
wording asserted by the specification and by the repository's own tests
(test_data_processor.py, lines 167 and 181). -/
theorem process_data_message_divergence :
    json_process_data loadsUnused readerFileNotFound "nonexistent.json" =
      Except.error (ProcError.fileNotFound
        (fileContextMessage "nonexistent.json" "File not found")) ∧
    csv_process_data readerFileNotFound "nonexistent.csv" =
      Except.error (ProcError.fileNotFound
        (fileContextMessage "nonexistent.csv" "File not found")) ∧
    json_process_data loadsUnused readerIOFailure "data.json" =
      Except.error (ProcError.ioError
        (fileContextMessage "data.json" "Error reading file: disk")) ∧
    strHasSub (fileContextMessage "nonexistent.json" "File not found")
      "Error processing JSON file" = false ∧
    strHasSub (fileContextMessage "nonexistent.csv" "File not found")
      "Error processing CSV file" = false ∧
    strHasSub (fileContextMessage "nonexistent.json" "File not found")
      "File error processing" = true ∧
    strHasSub (fileContextMessage "nonexistent.csv" "File not found")
      "File error processing" = true :=
  ⟨rfl, rfl, rfl, by decide, by decide, by decide, by decide⟩
